import Mathlib

/-!
Verification of the autopumptoken claim-orchestration pipeline.

This development gives a shallow embedding of the core pipeline of the
repository: the fee-claim settlement (backend/src/services/feeClaim.ts),
the buyback (buyback.ts), the burn (burn.ts), the orchestrator
(claimOrchestrator.ts), the persistence layer (db/queries.ts) and the
scheduler with its single-flight lock (scheduler source, monitoringTask
and forceCheck).

Modelling conventions:
- SOL amounts are rationals; lamport balances are integers; a SOL value
  is the lamport value divided by 10^9, exactly as the TypeScript
  divides by 1e9.  JavaScript double arithmetic is modelled by exact
  rational arithmetic.
- Every external call (RPC balance read, PumpPortal request, database
  query, webhook post) is an oracle value of type Except String alpha:
  ok means the awaited promise resolved, error carries the message of
  the thrown exception.  A function body then mirrors the source
  control flow (try/catch) over these oracles.
- Database effects are reified as a list of events (successful INSERT
  and UPDATE statements, in order); applyEvent mirrors the SQL of
  db/queries.ts: inserts create a row with status "pending" and a fresh
  serial id, updates set status and error message unconditionally.
- Log statements and timestamps are not modelled; they touch no
  persisted monetary field and no control flow.
-/

namespace AutoPump

/-- Row status, mirroring the status ENUM(pending, confirmed, failed)
of the claims, buybacks and burns tables. -/
inductive Status where
  | pending
  | confirmed
  | failed
deriving DecidableEq, Repr

/-- A status is terminal when it is confirmed or failed. -/
def Status.isTerminal : Status → Bool
  | .pending => false
  | .confirmed => true
  | .failed => true

/-- A row of the claims table (amounts in lamports, as persisted by
insertClaim after solToLamports conversion). -/
structure ClaimRow where
  id : Nat
  signature : String
  claimedAmount : Int
  treasuryAmount : Int
  buybackAmount : Int
  status : Status
  errorMessage : Option String
deriving DecidableEq, Repr

/-- A row of the buybacks table; tokens_purchased is NUMERIC and is
persisted as the decimal string the trade API returned. -/
structure BuybackRow where
  id : Nat
  claimId : Nat
  signature : String
  tokensPurchased : String
  solSpent : Int
  status : Status
  errorMessage : Option String
deriving DecidableEq, Repr

/-- A row of the burns table; tokens_burned keeps the display-format
decimal string. -/
structure BurnRow where
  id : Nat
  buybackId : Nat
  signature : String
  tokensBurned : String
  status : Status
  errorMessage : Option String
deriving DecidableEq, Repr

/-- The persistence store: the three pipeline tables plus the next
serial id of each (Postgres SERIAL sequences). -/
structure Store where
  claims : List ClaimRow
  buybacks : List BuybackRow
  burns : List BurnRow
  nextClaimId : Nat
  nextBuybackId : Nat
  nextBurnId : Nat
deriving DecidableEq, Repr

/-- A successful database write, in the order it was executed.  Insert
events carry the inserted column values of db/queries.ts; update events
mirror updateClaimStatus / updateBuybackStatus / updateBurnStatus. -/
inductive DbEvent where
  | insClaim (signature : String) (claimedAmount treasuryAmount buybackAmount : Int)
  | updClaim (id : Nat) (status : Status) (errorMessage : Option String)
  | insBuyback (claimId : Nat) (signature : String) (tokensPurchased : String) (solSpent : Int)
  | updBuyback (id : Nat) (status : Status) (errorMessage : Option String)
  | insBurn (buybackId : Nat) (signature : String) (tokensBurned : String)
  | updBurn (id : Nat) (status : Status) (errorMessage : Option String)
deriving DecidableEq, Repr

/-- Apply one database event to the store.  Inserts append a row with
status pending (the SQL literal in the INSERT statements) under the
next serial id; updates rewrite status and error message of the row
with the given id, unconditionally, exactly like the UPDATE ... WHERE
id = $n statements. -/
def applyEvent (s : Store) : DbEvent → Store
  | .insClaim sig c t b =>
      { s with
        claims := s.claims ++ [⟨s.nextClaimId, sig, c, t, b, .pending, none⟩],
        nextClaimId := s.nextClaimId + 1 }
  | .updClaim i st err =>
      { s with
        claims := s.claims.map fun r =>
          if r.id = i then { r with status := st, errorMessage := err } else r }
  | .insBuyback cid sig tok sol =>
      { s with
        buybacks := s.buybacks ++ [⟨s.nextBuybackId, cid, sig, tok, sol, .pending, none⟩],
        nextBuybackId := s.nextBuybackId + 1 }
  | .updBuyback i st err =>
      { s with
        buybacks := s.buybacks.map fun r =>
          if r.id = i then { r with status := st, errorMessage := err } else r }
  | .insBurn bid sig tok =>
      { s with
        burns := s.burns ++ [⟨s.nextBurnId, bid, sig, tok, .pending, none⟩],
        nextBurnId := s.nextBurnId + 1 }
  | .updBurn i st err =>
      { s with
        burns := s.burns.map fun r =>
          if r.id = i then { r with status := st, errorMessage := err } else r }

/-- Apply a list of database events, left to right. -/
def applyEvents (s : Store) (evs : List DbEvent) : Store :=
  evs.foldl applyEvent s

/-- The three pipeline tables. -/
inductive Tbl where
  | claims
  | buybacks
  | burns
deriving DecidableEq, Repr

/-- Status of the row with a given id in a given table (SELECT by id,
first match). -/
def statusOf (s : Store) : Tbl → Nat → Option Status
  | .claims, i => (s.claims.find? (fun r => r.id = i)).map (·.status)
  | .buybacks, i => (s.buybacks.find? (fun r => r.id = i)).map (·.status)
  | .burns, i => (s.burns.find? (fun r => r.id = i)).map (·.status)

/-- Store well-formedness: every existing row id is strictly below the
table sequence counter, so a fresh insert can never collide with an
existing id. -/
def WF (s : Store) : Prop :=
  (∀ r ∈ s.claims, r.id < s.nextClaimId) ∧
  (∀ r ∈ s.buybacks, r.id < s.nextBuybackId) ∧
  (∀ r ∈ s.burns, r.id < s.nextBurnId)

instance (s : Store) : Decidable (WF s) := by
  unfold WF; infer_instance

/-- Terminal statuses are stable along an event list: every single
event, applied at its position in the run, leaves every row that
already holds a terminal status unchanged in status. -/
def TerminalStable : Store → List DbEvent → Prop
  | _, [] => True
  | s, e :: rest =>
      (∀ t i st, st.isTerminal = true → statusOf s t i = some st →
        statusOf (applyEvent s e) t i = some st) ∧
      TerminalStable (applyEvent s e) rest

theorem applyEvents_append (s : Store) (l₁ l₂ : List DbEvent) :
    applyEvents s (l₁ ++ l₂) = applyEvents (applyEvents s l₁) l₂ :=
  List.foldl_append _ _ _ _

theorem terminalStable_append {s : Store} {l₁ l₂ : List DbEvent}
    (h₁ : TerminalStable s l₁) (h₂ : TerminalStable (applyEvents s l₁) l₂) :
    TerminalStable s (l₁ ++ l₂) := by
  induction l₁ generalizing s with
  | nil => simpa [applyEvents] using h₂
  | cons e rest ih =>
      refine ⟨h₁.1, ih h₁.2 ?_⟩
      simpa [applyEvents, List.foldl_cons] using h₂

/-- Terminal stability really is stability: once a row shows a terminal
status at some point of the run, it shows the same status after every
later event of the run. -/
theorem terminalStable_mono {s : Store} {evs : List DbEvent}
    (h : TerminalStable s evs) (n m : Nat) (hnm : n ≤ m)
    (t : Tbl) (i : Nat) (st : Status) (hterm : st.isTerminal = true)
    (hst : statusOf (applyEvents s (evs.take n)) t i = some st) :
    statusOf (applyEvents s (evs.take m)) t i = some st := by
  induction evs generalizing s n m with
  | nil => simpa [List.take_nil] using hst
  | cons e rest ih =>
      cases n with
      | zero =>
          cases m with
          | zero => simpa using hst
          | succ m =>
              simp only [List.take_succ_cons, applyEvents, List.foldl_cons] at *
              have h1 : statusOf (applyEvent s e) t i = some st :=
                h.1 t i st hterm (by simpa [applyEvents] using hst)
              exact ih h.2 0 m (Nat.zero_le m) (by simpa [applyEvents] using h1)
      | succ n =>
          cases m with
          | zero => omega
          | succ m =>
              simp only [List.take_succ_cons, applyEvents, List.foldl_cons] at *
              exact ih h.2 n m (Nat.le_of_succ_le_succ hnm) hst

/-! ## Numeric helpers (lib/solana.ts) -/

/-- lamportsToSol: divide a lamport balance by LAMPORTS_PER_SOL = 1e9. -/
def lamportsToSol (n : Int) : ℚ := (n : ℚ) / 1000000000

/-- solToLamports from lib/solana.ts: Math.floor(sol * LAMPORTS_PER_SOL). -/
def solToLamports (q : ℚ) : Int := ⌊q * 1000000000⌋

/-- MIN_WALLET_BALANCE_SOL = 0.01 from feeClaim.ts. -/
def minWalletBalanceSol : ℚ := 1 / 100

/-! ## Decimal-string parsing (JavaScript parseFloat, decimal subset)

burn.ts calls parseFloat on the display-format token amount.  We model
the decimal fragment of parseFloat: optional leading spaces, optional
sign, integer digits, optional fraction digits after a dot; trailing
characters are ignored (parseFloat stops at the first invalid
character); a string with no digit at all parses to NaN, modelled as
none.  Exponent forms are outside the pipeline inputs and are not
modelled. -/

/-- Value of a digit list, most significant first. -/
def digitsVal (cs : List Char) : Nat :=
  cs.foldl (fun a c => a * 10 + (c.toNat - 48)) 0

/-- Parse the decimal fragment accepted by parseFloat; none models NaN. -/
def parseDecimal (s : String) : Option ℚ :=
  let cs := s.toList.dropWhile (fun c => c = ' ')
  let sign : ℚ := if cs.head? = some '-' then -1 else 1
  let cs := if cs.head? = some '-' ∨ cs.head? = some '+' then cs.tail else cs
  let intDigits := cs.takeWhile Char.isDigit
  let rest := cs.dropWhile Char.isDigit
  let fracDigits :=
    match rest with
    | '.' :: t => t.takeWhile Char.isDigit
    | _ => []
  if intDigits.isEmpty ∧ fracDigits.isEmpty then none
  else
    some (sign * ((digitsVal intDigits : ℚ) +
      (digitsVal fracDigits : ℚ) / 10 ^ fracDigits.length))

/-! ## Fee claim (backend/src/services/feeClaim.ts) -/

/-- Mirror of the ClaimResult interface (types.ts); the timestamp field
is not modelled. -/
structure ClaimResultM where
  success : Bool
  signature : Option String
  claimedAmount : ℚ
  treasuryAmount : ℚ
  buybackAmount : ℚ
  error : Option String
deriving DecidableEq, Repr

/-- The failure ClaimResult built in the catch block of
claimCreatorFees: zero amounts and the error message. -/
def claimFail (msg : String) : ClaimResultM :=
  { success := false, signature := none, claimedAmount := 0,
    treasuryAmount := 0, buybackAmount := 0, error := some msg }

/-- Oracle for the external calls of claimCreatorFees, in program
order: the two getBalance reads (lamports), the PumpPortal claim
(resolving to the transaction signature), and the three database
statements. -/
structure ClaimOracle where
  balanceBefore : Except String Int
  claimFeesResponse : Except String String
  balanceAfter : Except String Int
  insClaimDb : Except String Unit
  updClaimConfirmedDb : Except String Unit
  updClaimFailedDb : Except String Unit
deriving Repr

/-- pumpFunAPI.claimFees (lib/pumpfun.ts): it receives the advisory
estimated amount but its PumpPortal request body contains only the
public key, the collectCreatorFee action and a fixed priority fee
("Collects ALL creator fees, no need to specify mint or amount"), so
the response oracle does not depend on the estimate. -/
def pumpFunClaimFees (_estimatedAmount : Option ℚ) (o : ClaimOracle) :
    Except String String :=
  o.claimFeesResponse

/-- The NoFundsReceived message of feeClaim.ts line 73. -/
def noFundsMsg (delta : ℚ) : String :=
  "No SOL received from claim. Balance change: " ++ toString delta

/-- The InvalidSplit message of feeClaim.ts lines 121-123. -/
def invalidSplitMsg (t b : ℚ) : String :=
  "Invalid split amounts: treasury=" ++ toString t ++ ", buyback=" ++ toString b

/-- Shallow embedding of claimCreatorFees.  Parameters: the configured
treasury and buyback percentages (env), the advisory estimate, the
oracle for the external calls, and the store (used only to know the
serial id an insert will receive).  Returns the settled promise (ok r:
the function returned r; error m: the function itself threw, which in
the source happens only when the catch-block updateClaimStatus call
rejects) together with the successful database events. -/
def claimCreatorFees (treasuryPercent buybackPercent : ℚ)
    (estimatedAmount : Option ℚ) (o : ClaimOracle) (s : Store) :
    Except String ClaimResultM × List DbEvent :=
  match o.balanceBefore with
  | .error e => (.ok (claimFail e), [])
  | .ok balanceBefore =>
    let solBefore := lamportsToSol balanceBefore
    match pumpFunClaimFees estimatedAmount o with
    | .error e => (.ok (claimFail e), [])
    | .ok signature =>
      match o.balanceAfter with
      | .error e => (.ok (claimFail e), [])
      | .ok balanceAfter =>
        let solAfter := lamportsToSol balanceAfter
        let claimedAmount := solAfter - solBefore
        if claimedAmount ≤ 0 then
          (.ok (claimFail (noFundsMsg claimedAmount)), [])
        else
          let treasuryAmount0 := claimedAmount * treasuryPercent / 100
          let buybackAmount0 := claimedAmount * buybackPercent / 100
          let totalToSend := treasuryAmount0 + buybackAmount0
          let willRemain := solAfter - totalToSend
          let amounts :=
            if willRemain < minWalletBalanceSol then
              let availableToSend := max 0 (solAfter - minWalletBalanceSol)
              (availableToSend * treasuryPercent / 100,
               availableToSend * buybackPercent / 100)
            else (treasuryAmount0, buybackAmount0)
          let treasuryAmount := amounts.1
          let buybackAmount := amounts.2
          if treasuryAmount ≤ 0 ∨ buybackAmount ≤ 0 then
            (.ok (claimFail (invalidSplitMsg treasuryAmount buybackAmount)), [])
          else
            let claimId := s.nextClaimId
            let insEv := DbEvent.insClaim signature (solToLamports claimedAmount)
              (solToLamports treasuryAmount) (solToLamports buybackAmount)
            match o.insClaimDb with
            | .error e => (.ok (claimFail e), [])
            | .ok _ =>
              match o.updClaimConfirmedDb with
              | .ok _ =>
                (.ok { success := true, signature := some signature,
                       claimedAmount := claimedAmount,
                       treasuryAmount := treasuryAmount,
                       buybackAmount := buybackAmount, error := none },
                 [insEv, .updClaim claimId .confirmed none])
              | .error e =>
                match o.updClaimFailedDb with
                | .ok _ => (.ok (claimFail e), [insEv, .updClaim claimId .failed (some e)])
                | .error e2 => (.error e2, [insEv])

/-! ## Buyback (backend/src/services/buyback.ts) -/

/-- Mirror of BuybackResult.  In the source tokensPurchased is
Number(tokensPurchased) and the orchestrator immediately stringifies it
again; the Number/toString round trip is modelled as the identity on
the decimal string the trade API returned. -/
structure BuybackResultM where
  success : Bool
  signature : Option String
  buybackId : Option Nat
  tokensPurchased : String
  solSpent : ℚ
  error : Option String
deriving DecidableEq, Repr

/-- Oracle for the external calls of buybackTokens, in program order:
the two getBalance reads, pumpFunAPI.buyToken (resolving to the
signature and the purchased token quantity as a decimal string) and the
three database statements. -/
structure BuybackOracle where
  balanceBefore : Except String Int
  buyTokenResponse : Except String (String × String)
  balanceAfter : Except String Int
  insBuybackDb : Except String Unit
  updBuybackConfirmedDb : Except String Unit
  updBuybackFailedDb : Except String Unit
deriving Repr

/-- The failure BuybackResult of the catch block: tokensPurchased 0 and
solSpent equal to the requested budget. -/
def buybackFailRes (amountSol : ℚ) (msg : String) : BuybackResultM :=
  { success := false, signature := none, buybackId := none,
    tokensPurchased := "0", solSpent := amountSol, error := some msg }

/-- Shallow embedding of buybackTokens: balance before, buy, balance
after, actual spend from the balance delta, insert linked to claimId,
status update.  As in claimCreatorFees, the error component of the
outer Except is the rare case where the catch-block status update
itself rejects. -/
def buybackTokens (claimId : Nat) (amountSol : ℚ) (o : BuybackOracle)
    (s : Store) : Except String BuybackResultM × List DbEvent :=
  match o.balanceBefore with
  | .error e => (.ok (buybackFailRes amountSol e), [])
  | .ok balanceBefore =>
    match o.buyTokenResponse with
    | .error e => (.ok (buybackFailRes amountSol e), [])
    | .ok res =>
      let signature := res.1
      let tokensPurchased := res.2
      match o.balanceAfter with
      | .error e => (.ok (buybackFailRes amountSol e), [])
      | .ok balanceAfter =>
        let actualSolSpent := lamportsToSol (balanceBefore - balanceAfter)
        let buybackId := s.nextBuybackId
        let insEv := DbEvent.insBuyback claimId signature tokensPurchased
          (solToLamports actualSolSpent)
        match o.insBuybackDb with
        | .error e => (.ok (buybackFailRes amountSol e), [])
        | .ok _ =>
          match o.updBuybackConfirmedDb with
          | .ok _ =>
            (.ok { success := true, signature := some signature,
                   buybackId := some buybackId,
                   tokensPurchased := tokensPurchased,
                   solSpent := actualSolSpent, error := none },
             [insEv, .updBuyback buybackId .confirmed none])
          | .error e =>
            match o.updBuybackFailedDb with
            | .ok _ =>
              (.ok (buybackFailRes amountSol e),
               [insEv, .updBuyback buybackId .failed (some e)])
            | .error e2 => (.error e2, [insEv])

/-! ## Burn (backend/src/services/burn.ts, decimal-conversion version) -/

/-- Mirror of BurnResult; tokensBurned is the parsed display amount on
success and 0 on failure. -/
structure BurnResultM where
  success : Bool
  signature : Option String
  tokensBurned : ℚ
  error : Option String
deriving DecidableEq, Repr

/-- Oracle for the external calls of burnPurchasedTokens, in program
order: getMint (resolving to the token decimal count), burnTokens
(resolving to the transfer signature) and the three database
statements. -/
structure BurnOracle where
  getMintDecimals : Except String Nat
  burnTxResponse : Except String String
  insBurnDb : Except String Unit
  updBurnConfirmedDb : Except String Unit
  updBurnFailedDb : Except String Unit
deriving Repr

/-- The raw base-unit amount of burn.ts line 168:
Math.floor(displayAmount * Math.pow(10, decimals)). -/
def burnRawAmount (displayAmount : ℚ) (decimals : Nat) : Int :=
  ⌊displayAmount * 10 ^ decimals⌋

/-- The invalid-amount message of burn.ts line 153. -/
def invalidTokenAmountMsg (tokenAmount : String) : String :=
  "Invalid token amount: " ++ tokenAmount

/-- The failure BurnResult of the catch block. -/
def burnFailRes (msg : String) : BurnResultM :=
  { success := false, signature := none, tokensBurned := 0, error := some msg }

/-- Full outcome of a burnPurchasedTokens call: the settled promise,
the successful database events, and the raw amount actually submitted
to burnTokens (none when the transfer was never attempted). -/
structure BurnOutcome where
  result : Except String BurnResultM
  events : List DbEvent
  submittedRaw : Option Int
deriving Repr

/-- Shallow embedding of burnPurchasedTokens: parse the display string
(parseFloat), reject NaN or non-positive values, fetch the decimal
count, convert with the truncating floor, submit the transfer, persist
the burn row with the original display string.  The source has no
check that the converted raw amount is non-zero. -/
def burnPurchasedTokens (buybackId : Nat) (tokenAmount : String)
    (o : BurnOracle) (s : Store) : BurnOutcome :=
  match parseDecimal tokenAmount with
  | none => ⟨.ok (burnFailRes (invalidTokenAmountMsg tokenAmount)), [], none⟩
  | some displayAmount =>
    if displayAmount ≤ 0 then
      ⟨.ok (burnFailRes (invalidTokenAmountMsg tokenAmount)), [], none⟩
    else
      match o.getMintDecimals with
      | .error e => ⟨.ok (burnFailRes e), [], none⟩
      | .ok decimals =>
        let rawAmount := burnRawAmount displayAmount decimals
        match o.burnTxResponse with
        | .error e => ⟨.ok (burnFailRes e), [], some rawAmount⟩
        | .ok signature =>
          let burnId := s.nextBurnId
          let insEv := DbEvent.insBurn buybackId signature tokenAmount
          match o.insBurnDb with
          | .error e => ⟨.ok (burnFailRes e), [], some rawAmount⟩
          | .ok _ =>
            match o.updBurnConfirmedDb with
            | .ok _ =>
              ⟨.ok { success := true, signature := some signature,
                     tokensBurned := displayAmount, error := none },
               [insEv, .updBurn burnId .confirmed none], some rawAmount⟩
            | .error e =>
              match o.updBurnFailedDb with
              | .ok _ =>
                ⟨.ok (burnFailRes e),
                 [insEv, .updBurn burnId .failed (some e)], some rawAmount⟩
              | .error e2 => ⟨.error e2, [insEv], some rawAmount⟩

/-! ## Orchestrator (backend/src/services/claimOrchestrator.ts) -/

/-- Mirror of OrchestrationResult; tokensBurned is the numeric value of
the stringified field (0 on failure, where the source puts "0"). -/
structure FlowResultM where
  success : Bool
  claimSignature : Option String
  treasurySignature : Option String
  buybackSignature : Option String
  burnSignature : Option String
  claimedAmount : ℚ
  treasuryAmount : ℚ
  buybackAmount : ℚ
  tokensBurned : ℚ
  error : Option String
deriving DecidableEq, Repr

/-- Oracle for the orchestrator-level external calls, in program
order; the stage services carry their own oracles.  readClaim1 and
readBuyback1 are the getClaimById(1) / getBuybackById(1) queries (their
row content is read from the store, the oracle only decides whether the
query rejects).  The two webhook fields are the axios.post outcomes of
the success and the failure notification. -/
structure FlowOracle where
  validateFees : Except String ℚ
  claim : ClaimOracle
  readClaim1 : Except String Unit
  treasuryTransfer : Except String String
  buyback : BuybackOracle
  readBuyback1 : Except String Unit
  burn : BurnOracle
  webhookConfigured : Bool
  webhookPostOk : Except String Unit
  webhookPostFail : Except String Unit
deriving Repr

/-- The stages the orchestrator actually enters, plus the webhook
notification (with its payload kind), in execution order. -/
inductive StageCall where
  | validateStage
  | claimStage
  | treasuryStage
  | buybackStage
  | burnStage
  | webhookNotify (success : Bool)
deriving DecidableEq, Repr

/-- The failure OrchestrationResult of the catch block: zero amounts,
"0" tokens burned, and the error message. -/
def flowFail (msg : String) : FlowResultM :=
  { success := false, claimSignature := none, treasurySignature := none,
    buybackSignature := none, burnSignature := none, claimedAmount := 0,
    treasuryAmount := 0, buybackAmount := 0, tokensBurned := 0,
    error := some msg }

/-- The webhook notification stage: posts only when a webhook URL is
configured; a rejected post is caught and logged, so its outcome does
not influence anything. -/
def notifyCalls (configured : Bool) (success : Bool) : List StageCall :=
  if configured then [.webhookNotify success] else []

/-- Shared shape of every abort path of executeClaimFlow: the failure
result, the database events written so far, and the stages entered so
far followed by the failure notification. -/
def flowAbort (o : FlowOracle) (msg : String) (evs : List DbEvent)
    (stages : List StageCall) : FlowResultM × List DbEvent × List StageCall :=
  (flowFail msg, evs, stages ++ notifyCalls o.webhookConfigured false)

/-- Shallow embedding of executeClaimFlow: validate threshold, claim,
look up claim id 1, treasury transfer, buyback, look up buyback id 1,
burn, then notify.  Any stage error is caught by the single outer
try/catch, which builds the failure result and posts the failure
notification; no compensating write is issued.  The claim id passed to
buybackTokens and the buyback id passed to burnPurchasedTokens mirror
the source exactly: getClaimById(1)?.id with fallback 1 (the source
comments say "This should query by signature"). -/
def executeClaimFlow (treasuryPercent buybackPercent : ℚ) (o : FlowOracle)
    (s : Store) : FlowResultM × List DbEvent × List StageCall :=
  match o.validateFees with
  | .error e => flowAbort o e [] [.validateStage]
  | .ok estimatedAmount =>
    let claimStep :=
      claimCreatorFees treasuryPercent buybackPercent (some estimatedAmount)
        o.claim s
    let claimEvs := claimStep.2
    let stages0 : List StageCall := [.validateStage, .claimStage]
    match claimStep.1 with
    | .error e => flowAbort o e claimEvs stages0
    | .ok claimResult =>
      if claimResult.success = false then
        flowAbort o ("Fee claim failed: " ++ claimResult.error.getD "undefined")
          claimEvs stages0
      else
        let s1 := applyEvents s claimEvs
        match o.readClaim1 with
        | .error e => flowAbort o e claimEvs stages0
        | .ok _ =>
          let claimId := ((s1.claims.find? (fun c => c.id = 1)).map (·.id)).getD 1
          match o.treasuryTransfer with
          | .error e => flowAbort o e claimEvs (stages0 ++ [.treasuryStage])
          | .ok treasurySignature =>
            let stages1 := stages0 ++ [.treasuryStage, .buybackStage]
            let buyStep :=
              buybackTokens claimId claimResult.buybackAmount o.buyback s1
            let buyEvs := buyStep.2
            match buyStep.1 with
            | .error e => flowAbort o e (claimEvs ++ buyEvs) stages1
            | .ok buybackResult =>
              if buybackResult.success = false then
                flowAbort o
                  ("Buyback failed: " ++ buybackResult.error.getD "undefined")
                  (claimEvs ++ buyEvs) stages1
              else
                let s2 := applyEvents s1 buyEvs
                match o.readBuyback1 with
                | .error e => flowAbort o e (claimEvs ++ buyEvs) stages1
                | .ok _ =>
                  let buybackId :=
                    ((s2.buybacks.find? (fun b => b.id = 1)).map (·.id)).getD 1
                  let stages2 := stages1 ++ [.burnStage]
                  let burnStep :=
                    burnPurchasedTokens buybackId buybackResult.tokensPurchased
                      o.burn s2
                  let allEvs := claimEvs ++ buyEvs ++ burnStep.events
                  match burnStep.result with
                  | .error e => flowAbort o e allEvs stages2
                  | .ok burnResult =>
                    if burnResult.success = false then
                      flowAbort o
                        ("Burn failed: " ++ burnResult.error.getD "undefined")
                        allEvs stages2
                    else
                      ({ success := true,
                         claimSignature := claimResult.signature,
                         treasurySignature := some treasurySignature,
                         buybackSignature := buybackResult.signature,
                         burnSignature := burnResult.signature,
                         claimedAmount := claimResult.claimedAmount,
                         treasuryAmount := claimResult.treasuryAmount,
                         buybackAmount := claimResult.buybackAmount,
                         tokensBurned := burnResult.tokensBurned,
                         error := none },
                       allEvs,
                       stages2 ++ notifyCalls o.webhookConfigured true)

/-! ## Scheduler (scheduler source: monitoringTask, forceCheck)

JavaScript runs monitoringTask cooperatively: code between two awaited
calls is atomic, and a new cron tick can start while an earlier tick is
suspended at an await.  The relevant suspension points of
monitoringTask are: the getSystemStatus read (before the pause check
and the claimInProgress check, which share one synchronous segment),
the updateSystemStatus/shouldClaimFees calls (after the lock check and
before the lock is set), and the executeClaimFlow call itself (while
the lock is set).  The finally block is synchronous and runs on every
exit, including the early returns: it clears claimInProgress whenever
it is set, even when this task never set it. -/

/-- Program counter of one monitoringTask invocation, split at its
await points. -/
inductive TickPhase where
  | phaseStart
  | phaseAfterStatus
  | phaseAfterDecision
  | phaseRunning
  | phaseDone
deriving DecidableEq, Repr

/-- Configuration inputs of a tick: the persisted pause flag, the
monitor decision, and the AUTO_CLAIM_ENABLED env flag (taken constant
across the interleaving). -/
structure SchedEnv where
  isPaused : Bool
  shouldClaim : Bool
  autoClaimEnabled : Bool
deriving Repr

/-- Scheduler state: the shared claimInProgress boolean and the
in-flight monitoringTask invocations. -/
structure SchedState where
  claimInProgress : Bool
  tasks : List TickPhase
deriving DecidableEq, Repr

/-- One atomic step of the scheduler system: a cron tick spawning a new
monitoringTask, or one suspended task running its next synchronous
segment.  Each segment mirrors the source: the pause and lock checks
happen together after the getSystemStatus await; the lock is set only
in the segment after the shouldClaimFees await; every early return and
the normal return run the finally block, which sets claimInProgress to
false whenever it is true. -/
inductive SchedStep (env : SchedEnv) : SchedState → SchedState → Prop where
  | tick (lk : Bool) (ts : List TickPhase) :
      SchedStep env ⟨lk, ts⟩ ⟨lk, ts ++ [.phaseStart]⟩
  | beginTask (lk : Bool) (l r : List TickPhase) :
      SchedStep env ⟨lk, l ++ .phaseStart :: r⟩ ⟨lk, l ++ .phaseAfterStatus :: r⟩
  | skipPaused (lk : Bool) (l r : List TickPhase) (hp : env.isPaused = true) :
      SchedStep env ⟨lk, l ++ .phaseAfterStatus :: r⟩ ⟨false, l ++ .phaseDone :: r⟩
  | skipLocked (l r : List TickPhase) (hp : env.isPaused = false) :
      SchedStep env ⟨true, l ++ .phaseAfterStatus :: r⟩ ⟨false, l ++ .phaseDone :: r⟩
  | proceed (l r : List TickPhase) (hp : env.isPaused = false) :
      SchedStep env ⟨false, l ++ .phaseAfterStatus :: r⟩
        ⟨false, l ++ .phaseAfterDecision :: r⟩
  | noClaim (lk : Bool) (l r : List TickPhase)
      (h : (env.shouldClaim && env.autoClaimEnabled) = false) :
      SchedStep env ⟨lk, l ++ .phaseAfterDecision :: r⟩ ⟨false, l ++ .phaseDone :: r⟩
  | acquire (lk : Bool) (l r : List TickPhase)
      (h1 : env.shouldClaim = true) (h2 : env.autoClaimEnabled = true) :
      SchedStep env ⟨lk, l ++ .phaseAfterDecision :: r⟩ ⟨true, l ++ .phaseRunning :: r⟩
  | finish (lk : Bool) (l r : List TickPhase) :
      SchedStep env ⟨lk, l ++ .phaseRunning :: r⟩ ⟨false, l ++ .phaseDone :: r⟩

/-- Reachability in the scheduler system. -/
def SchedReachable (env : SchedEnv) : SchedState → SchedState → Prop :=
  Relation.ReflTransGen (SchedStep env)

/-- Number of Orchestrator runs currently in flight: tasks suspended
inside executeClaimFlow. -/
def inFlight (s : SchedState) : Nat :=
  s.tasks.count TickPhase.phaseRunning

/-- forceCheck of the scheduler source: refuse with a conflict error
when the lock is held, otherwise run a monitoringTask. -/
def forceCheck (s : SchedState) : Except String SchedState :=
  if s.claimInProgress then .error "Claim operation already in progress"
  else .ok { s with tasks := s.tasks ++ [.phaseStart] }

/-- The environment of the racing interleaving: not paused, fees above
threshold, auto-claim enabled. -/
def raceEnv : SchedEnv := ⟨false, true, true⟩

/-! ## Helper lemmas about find? and the store -/

theorem find?_append_of_some {α : Type} {l₁ : List α} (l₂ : List α)
    {p : α → Bool} {a : α} (h : l₁.find? p = some a) :
    (l₁ ++ l₂).find? p = some a := by
  induction l₁ with
  | nil => simp [List.find?] at h
  | cons x xs ih =>
      by_cases hp : p x
      · simp_all [List.find?_cons_of_pos]
      · simp only [List.find?_cons_of_neg _ hp] at h
        simpa [List.find?_cons_of_neg _ hp] using ih h

theorem find?_append_of_none {α : Type} {l₁ : List α} (l₂ : List α)
    {p : α → Bool} (h : l₁.find? p = none) :
    (l₁ ++ l₂).find? p = l₂.find? p := by
  induction l₁ with
  | nil => simp
  | cons x xs ih =>
      by_cases hp : p x
      · simp [List.find?_cons_of_pos _ hp] at h
      · simp only [List.find?_cons_of_neg _ hp] at h
        simpa [List.find?_cons_of_neg _ hp] using ih h

theorem find?_map_of_pred_preserved {α : Type} (l : List α) (p : α → Bool)
    (f : α → α) (hf : ∀ x, p (f x) = p x) :
    (l.map f).find? p = (l.find? p).map f := by
  induction l with
  | nil => simp
  | cons x xs ih =>
      by_cases hp : p x
      · simp [List.find?_cons_of_pos _ hp, List.find?_cons_of_pos _ ((hf x).trans hp)]
      · have : p (f x) = false := (hf x).trans (by simpa using hp)
        simp only [List.map_cons, List.find?_cons_of_neg _ (by simpa using this),
          List.find?_cons_of_neg _ hp]
        exact ih

/-- A fresh id is found in no row of a claims table bounded by it. -/
theorem find?_claims_fresh_none {l : List ClaimRow} {n : Nat}
    (h : ∀ r ∈ l, r.id < n) : l.find? (fun r => r.id = n) = none := by
  apply List.find?_eq_none.mpr
  intro x hx
  have := h x hx
  simp only [decide_eq_true_eq]
  omega

theorem find?_buybacks_fresh_none {l : List BuybackRow} {n : Nat}
    (h : ∀ r ∈ l, r.id < n) : l.find? (fun r => r.id = n) = none := by
  apply List.find?_eq_none.mpr
  intro x hx
  have := h x hx
  simp only [decide_eq_true_eq]
  omega

theorem find?_burns_fresh_none {l : List BurnRow} {n : Nat}
    (h : ∀ r ∈ l, r.id < n) : l.find? (fun r => r.id = n) = none := by
  apply List.find?_eq_none.mpr
  intro x hx
  have := h x hx
  simp only [decide_eq_true_eq]
  omega

/-! ## Status preservation by single events -/

theorem statusOf_ins_preserve (s : Store) (e : DbEvent)
    (hins : ∀ i st err, e ≠ .updClaim i st err ∧ e ≠ .updBuyback i st err ∧
      e ≠ .updBurn i st err)
    (t : Tbl) (i : Nat) (st : Status) (h : statusOf s t i = some st) :
    statusOf (applyEvent s e) t i = some st := by
  rcases e with ⟨sig, c, tr, b⟩ | ⟨j, st', err⟩ | ⟨cid, sig, tok, sol⟩ |
    ⟨j, st', err⟩ | ⟨bid, sig, tok⟩ | ⟨j, st', err⟩
  · cases t <;> simp only [statusOf, applyEvent] at h ⊢
    · rcases Option.map_eq_some'.mp h with ⟨r, hr, hrs⟩
      rw [find?_append_of_some _ hr]; simpa using hrs
    · exact h
    · exact h
  · exact absurd rfl (hins j st' err).1
  · cases t <;> simp only [statusOf, applyEvent] at h ⊢
    · exact h
    · rcases Option.map_eq_some'.mp h with ⟨r, hr, hrs⟩
      rw [find?_append_of_some _ hr]; simpa using hrs
    · exact h
  · exact absurd rfl (hins j st' err).2.1
  · cases t <;> simp only [statusOf, applyEvent] at h ⊢
    · exact h
    · exact h
    · rcases Option.map_eq_some'.mp h with ⟨r, hr, hrs⟩
      rw [find?_append_of_some _ hr]; simpa using hrs
  · exact absurd rfl (hins j st' err).2.2

theorem statusOf_updClaim_other (s : Store) (j : Nat) (st' : Status)
    (err : Option String) (t : Tbl) (i : Nat) (st : Status)
    (hne : t = Tbl.claims → i ≠ j) (h : statusOf s t i = some st) :
    statusOf (applyEvent s (.updClaim j st' err)) t i = some st := by
  cases t <;> simp only [statusOf, applyEvent] at h ⊢
  · rcases Option.map_eq_some'.mp h with ⟨r, hr, hrs⟩
    rw [find?_map_of_pred_preserved _ _ _
      (fun x => by by_cases hx : x.id = j <;> simp [hx])]
    rw [hr]
    have hri : r.id = i := by
      have := List.find?_some hr; simpa using this
    have : ¬(r.id = j) := by
      rw [hri]; exact hne rfl
    simp [this, hrs]
  · exact h
  · exact h

theorem statusOf_updBuyback_other (s : Store) (j : Nat) (st' : Status)
    (err : Option String) (t : Tbl) (i : Nat) (st : Status)
    (hne : t = Tbl.buybacks → i ≠ j) (h : statusOf s t i = some st) :
    statusOf (applyEvent s (.updBuyback j st' err)) t i = some st := by
  cases t <;> simp only [statusOf, applyEvent] at h ⊢
  · exact h
  · rcases Option.map_eq_some'.mp h with ⟨r, hr, hrs⟩
    rw [find?_map_of_pred_preserved _ _ _
      (fun x => by by_cases hx : x.id = j <;> simp [hx])]
    rw [hr]
    have hri : r.id = i := by
      have := List.find?_some hr; simpa using this
    have : ¬(r.id = j) := by
      rw [hri]; exact hne rfl
    simp [this, hrs]
  · exact h

theorem statusOf_updBurn_other (s : Store) (j : Nat) (st' : Status)
    (err : Option String) (t : Tbl) (i : Nat) (st : Status)
    (hne : t = Tbl.burns → i ≠ j) (h : statusOf s t i = some st) :
    statusOf (applyEvent s (.updBurn j st' err)) t i = some st := by
  cases t <;> simp only [statusOf, applyEvent] at h ⊢
  · exact h
  · exact h
  · rcases Option.map_eq_some'.mp h with ⟨r, hr, hrs⟩
    rw [find?_map_of_pred_preserved _ _ _
      (fun x => by by_cases hx : x.id = j <;> simp [hx])]
    rw [hr]
    have hri : r.id = i := by
      have := List.find?_some hr; simpa using this
    have : ¬(r.id = j) := by
      rw [hri]; exact hne rfl
    simp [this, hrs]

/-- After inserting a claim into a store whose claim ids are bounded by
the sequence counter, the fresh row is pending. -/
theorem statusOf_after_insClaim_fresh (s : Store)
    (hwf : ∀ r ∈ s.claims, r.id < s.nextClaimId) (sig : String)
    (c t b : Int) :
    statusOf (applyEvent s (.insClaim sig c t b)) .claims s.nextClaimId =
      some .pending := by
  simp only [statusOf, applyEvent]
  rw [find?_append_of_none _ (find?_claims_fresh_none hwf)]
  simp [List.find?]

theorem statusOf_after_insBuyback_fresh (s : Store)
    (hwf : ∀ r ∈ s.buybacks, r.id < s.nextBuybackId) (cid : Nat)
    (sig tok : String) (sol : Int) :
    statusOf (applyEvent s (.insBuyback cid sig tok sol)) .buybacks
      s.nextBuybackId = some .pending := by
  simp only [statusOf, applyEvent]
  rw [find?_append_of_none _ (find?_buybacks_fresh_none hwf)]
  simp [List.find?]

theorem statusOf_after_insBurn_fresh (s : Store)
    (hwf : ∀ r ∈ s.burns, r.id < s.nextBurnId) (bid : Nat) (sig tok : String) :
    statusOf (applyEvent s (.insBurn bid sig tok)) .burns s.nextBurnId =
      some .pending := by
  simp only [statusOf, applyEvent]
  rw [find?_append_of_none _ (find?_burns_fresh_none hwf)]
  simp [List.find?]

/-- Every database event preserves store well-formedness. -/
theorem wf_applyEvent (s : Store) (e : DbEvent) (hwf : WF s) :
    WF (applyEvent s e) := by
  obtain ⟨h1, h2, h3⟩ := hwf
  rcases e with ⟨sig, c, tr, b⟩ | ⟨j, st', err⟩ | ⟨cid, sig, tok, sol⟩ |
    ⟨j, st', err⟩ | ⟨bid, sig, tok⟩ | ⟨j, st', err⟩ <;>
    refine ⟨?_, ?_, ?_⟩ <;> simp only [applyEvent] <;> intro r hr
  case insClaim.refine_1 =>
    rcases List.mem_append.mp hr with h | h
    · exact Nat.lt_succ_of_lt (h1 r h)
    · simp at h; subst h; exact Nat.lt_succ_self _
  case insClaim.refine_2 => exact h2 r hr
  case insClaim.refine_3 => exact h3 r hr
  case updClaim.refine_1 =>
    rcases List.mem_map.mp hr with ⟨x, hx, hfx⟩
    subst hfx
    by_cases hj : x.id = j
    · rw [if_pos hj]; exact h1 x hx
    · rw [if_neg hj]; exact h1 x hx
  case updClaim.refine_2 => exact h2 r hr
  case updClaim.refine_3 => exact h3 r hr
  case insBuyback.refine_1 => exact h1 r hr
  case insBuyback.refine_2 =>
    rcases List.mem_append.mp hr with h | h
    · exact Nat.lt_succ_of_lt (h2 r h)
    · simp at h; subst h; exact Nat.lt_succ_self _
  case insBuyback.refine_3 => exact h3 r hr
  case updBuyback.refine_1 => exact h1 r hr
  case updBuyback.refine_2 =>
    rcases List.mem_map.mp hr with ⟨x, hx, hfx⟩
    subst hfx
    by_cases hj : x.id = j
    · rw [if_pos hj]; exact h2 x hx
    · rw [if_neg hj]; exact h2 x hx
  case updBuyback.refine_3 => exact h3 r hr
  case insBurn.refine_1 => exact h1 r hr
  case insBurn.refine_2 => exact h2 r hr
  case insBurn.refine_3 =>
    rcases List.mem_append.mp hr with h | h
    · exact Nat.lt_succ_of_lt (h3 r h)
    · simp at h; subst h; exact Nat.lt_succ_self _
  case updBurn.refine_1 => exact h1 r hr
  case updBurn.refine_2 => exact h2 r hr
  case updBurn.refine_3 =>
    rcases List.mem_map.mp hr with ⟨x, hx, hfx⟩
    subst hfx
    by_cases hj : x.id = j
    · rw [if_pos hj]; exact h3 x hx
    · rw [if_neg hj]; exact h3 x hx

theorem wf_applyEvents (s : Store) (evs : List DbEvent) (hwf : WF s) :
    WF (applyEvents s evs) := by
  induction evs generalizing s with
  | nil => exact hwf
  | cons e rest ih => exact ih _ (wf_applyEvent s e hwf)

/-! ## Terminal stability of the event lists of each service -/

/-- Inserts alone never change any status. -/
theorem terminalStable_ins_single (s : Store) (e : DbEvent)
    (hins : ∀ i st err, e ≠ .updClaim i st err ∧ e ≠ .updBuyback i st err ∧
      e ≠ .updBurn i st err) : TerminalStable s [e] :=
  ⟨fun tb i st _ h => statusOf_ins_preserve s e hins tb i st h, trivial⟩

/-- A claim insert followed by a status update of the freshly inserted
row never changes a terminal status: the update hits a row that is
pending at that point. -/
theorem terminalStable_claim_pair (s : Store)
    (hwf : ∀ r ∈ s.claims, r.id < s.nextClaimId)
    (sig : String) (c t b : Int) (st' : Status) (err : Option String) :
    TerminalStable s [.insClaim sig c t b, .updClaim s.nextClaimId st' err] := by
  refine ⟨fun tb i st _ h =>
    statusOf_ins_preserve s _ (by intro i st err; simp) tb i st h, ?_, trivial⟩
  intro tb i st hterm h
  by_cases hid : tb = Tbl.claims ∧ i = s.nextClaimId
  · obtain ⟨ht, hi⟩ := hid
    subst ht; subst hi
    rw [statusOf_after_insClaim_fresh s hwf sig c t b] at h
    have : Status.pending = st := by simpa using h
    subst this
    simp [Status.isTerminal] at hterm
  · refine statusOf_updClaim_other _ _ _ _ _ _ _ (fun htb hi => hid ⟨htb, hi⟩) h

/-- Buyback analogue of terminalStable_claim_pair. -/
theorem terminalStable_buyback_pair (s : Store)
    (hwf : ∀ r ∈ s.buybacks, r.id < s.nextBuybackId)
    (cid : Nat) (sig tok : String) (sol : Int) (st' : Status)
    (err : Option String) :
    TerminalStable s
      [.insBuyback cid sig tok sol, .updBuyback s.nextBuybackId st' err] := by
  refine ⟨fun tb i st _ h =>
    statusOf_ins_preserve s _ (by intro i st err; simp) tb i st h, ?_, trivial⟩
  intro tb i st hterm h
  by_cases hid : tb = Tbl.buybacks ∧ i = s.nextBuybackId
  · obtain ⟨ht, hi⟩ := hid
    subst ht; subst hi
    rw [statusOf_after_insBuyback_fresh s hwf cid sig tok sol] at h
    have : Status.pending = st := by simpa using h
    subst this
    simp [Status.isTerminal] at hterm
  · refine statusOf_updBuyback_other _ _ _ _ _ _ _ (fun htb hi => hid ⟨htb, hi⟩) h

/-- Burn analogue of terminalStable_claim_pair. -/
theorem terminalStable_burn_pair (s : Store)
    (hwf : ∀ r ∈ s.burns, r.id < s.nextBurnId)
    (bid : Nat) (sig tok : String) (st' : Status) (err : Option String) :
    TerminalStable s [.insBurn bid sig tok, .updBurn s.nextBurnId st' err] := by
  refine ⟨fun tb i st _ h =>
    statusOf_ins_preserve s _ (by intro i st err; simp) tb i st h, ?_, trivial⟩
  intro tb i st hterm h
  by_cases hid : tb = Tbl.burns ∧ i = s.nextBurnId
  · obtain ⟨ht, hi⟩ := hid
    subst ht; subst hi
    rw [statusOf_after_insBurn_fresh s hwf bid sig tok] at h
    have : Status.pending = st := by simpa using h
    subst this
    simp [Status.isTerminal] at hterm
  · refine statusOf_updBurn_other _ _ _ _ _ _ _ (fun htb hi => hid ⟨htb, hi⟩) h

/-- The event list of one claimCreatorFees run never changes a terminal
status of a well-formed store. -/
theorem ts_claimCreatorFees (tp bp : ℚ) (est : Option ℚ) (o : ClaimOracle)
    (s : Store) (hwf : ∀ r ∈ s.claims, r.id < s.nextClaimId) :
    TerminalStable s (claimCreatorFees tp bp est o s).2 := by
  unfold claimCreatorFees pumpFunClaimFees
  rcases o.balanceBefore with e | b
  · exact trivial
  rcases o.claimFeesResponse with e | sig
  · exact trivial
  rcases o.balanceAfter with e | a
  · exact trivial
  rcases o.insClaimDb with e | u <;>
    rcases o.updClaimConfirmedDb with e2 | u2 <;>
    rcases o.updClaimFailedDb with e3 | u3 <;>
    simp only <;>
    repeat' split
  all_goals
    first
    | exact trivial
    | exact terminalStable_ins_single s _ (by intro i st err; simp)
    | exact terminalStable_claim_pair s hwf _ _ _ _ _ _

/-- The event list of one buybackTokens run never changes a terminal
status of a well-formed store. -/
theorem ts_buybackTokens (cid : Nat) (amt : ℚ) (o : BuybackOracle) (s : Store)
    (hwf : ∀ r ∈ s.buybacks, r.id < s.nextBuybackId) :
    TerminalStable s (buybackTokens cid amt o s).2 := by
  unfold buybackTokens
  rcases o.balanceBefore with e | b
  · exact trivial
  rcases o.buyTokenResponse with e | res
  · exact trivial
  rcases o.balanceAfter with e | a
  · exact trivial
  rcases o.insBuybackDb with e | u <;>
    rcases o.updBuybackConfirmedDb with e2 | u2 <;>
    rcases o.updBuybackFailedDb with e3 | u3 <;>
    simp only
  all_goals
    first
    | exact trivial
    | exact terminalStable_ins_single s _ (by intro i st err; simp)
    | exact terminalStable_buyback_pair s hwf _ _ _ _ _ _

/-- The event list of one burnPurchasedTokens run never changes a
terminal status of a well-formed store. -/
theorem ts_burnPurchasedTokens (bid : Nat) (tok : String) (o : BurnOracle)
    (s : Store) (hwf : ∀ r ∈ s.burns, r.id < s.nextBurnId) :
    TerminalStable s (burnPurchasedTokens bid tok o s).events := by
  unfold burnPurchasedTokens
  rcases parseDecimal tok with _ | d
  · exact trivial
  rcases o.getMintDecimals with e | dec <;>
    rcases o.burnTxResponse with e2 | sig <;>
    rcases o.insBurnDb with e3 | u <;>
    rcases o.updBurnConfirmedDb with e4 | u2 <;>
    rcases o.updBurnFailedDb with e5 | u3 <;>
    simp only <;>
    repeat' split
  all_goals
    first
    | exact trivial
    | exact terminalStable_ins_single s _ (by intro i st err; simp)
    | exact terminalStable_burn_pair s hwf _ _ _ _ _

/-- C8: For every Claim, Buyback, and Burn record, once its status is
confirmed or failed it never transitions again: along the database
events of any executeClaimFlow run over a well-formed store, no event
changes the status of a row that already holds a terminal status.  The
services insert rows as pending and update only the row they just
inserted, so terminal rows are never touched. -/
theorem c8_status_terminal_stable (tp bp : ℚ) (o : FlowOracle) (s : Store)
    (hwf : WF s) : TerminalStable s (executeClaimFlow tp bp o s).2.1 := by
  have hc : ∀ est, TerminalStable s (claimCreatorFees tp bp (some est) o.claim s).2 :=
    fun est => ts_claimCreatorFees tp bp (some est) o.claim s hwf.1
  have hwf1 : ∀ est, WF (applyEvents s (claimCreatorFees tp bp (some est) o.claim s).2) :=
    fun est => wf_applyEvents s _ hwf
  have hb : ∀ est cid amt,
      TerminalStable (applyEvents s (claimCreatorFees tp bp (some est) o.claim s).2)
        (buybackTokens cid amt o.buyback
          (applyEvents s (claimCreatorFees tp bp (some est) o.claim s).2)).2 :=
    fun est cid amt => ts_buybackTokens cid amt o.buyback _ (hwf1 est).2.1
  have hcb : ∀ est cid amt,
      TerminalStable s ((claimCreatorFees tp bp (some est) o.claim s).2 ++
        (buybackTokens cid amt o.buyback
          (applyEvents s (claimCreatorFees tp bp (some est) o.claim s).2)).2) :=
    fun est cid amt => terminalStable_append (hc est) (hb est cid amt)
  have hwf2 : ∀ est cid amt,
      WF (applyEvents (applyEvents s (claimCreatorFees tp bp (some est) o.claim s).2)
        (buybackTokens cid amt o.buyback
          (applyEvents s (claimCreatorFees tp bp (some est) o.claim s).2)).2) :=
    fun est cid amt => wf_applyEvents _ _ (hwf1 est)
  have hr : ∀ est cid amt bid tok,
      TerminalStable s (((claimCreatorFees tp bp (some est) o.claim s).2 ++
        (buybackTokens cid amt o.buyback
          (applyEvents s (claimCreatorFees tp bp (some est) o.claim s).2)).2) ++
        (burnPurchasedTokens bid tok o.burn
          (applyEvents (applyEvents s (claimCreatorFees tp bp (some est) o.claim s).2)
            (buybackTokens cid amt o.buyback
              (applyEvents s (claimCreatorFees tp bp (some est) o.claim s).2)).2)).events) := by
    intro est cid amt bid tok
    refine terminalStable_append (hcb est cid amt) ?_
    rw [applyEvents_append]
    exact ts_burnPurchasedTokens bid tok o.burn _ (hwf2 est cid amt).2.2
  unfold executeClaimFlow
  rcases o.validateFees with e | est
  · exact trivial
  simp only
  rcases hres : (claimCreatorFees tp bp (some est) o.claim s).1 with e | cr
  · exact hc est
  repeat' split
  all_goals
    first
    | exact hc est
    | exact hcb est _ _
    | exact hr est _ _ _ _

/-! ## Concrete fixtures for witnesses and counterexamples -/

/-- A fresh store, as created by the schema migration. -/
def emptyStore : Store := ⟨[], [], [], 1, 1, 1⟩

/-- Oracle of a fully successful claim following Scenario A of the
spec: balance 1.000 SOL before, 1.0185 SOL after. -/
def okClaimOracle : ClaimOracle :=
  ⟨.ok 1000000000, .ok "csig", .ok 1018500000, .ok (), .ok (), .ok ()⟩

/-- Oracle of a fully successful buyback: 0.00925 SOL spent,
purchasing 194000.5 tokens. -/
def okBuybackOracle : BuybackOracle :=
  ⟨.ok 1018500000, .ok ("bsig", "194000.5"), .ok 1009250000, .ok (), .ok (), .ok ()⟩

/-- Oracle of a fully successful burn on a 6-decimal token. -/
def okBurnOracle : BurnOracle := ⟨.ok 6, .ok "rsig", .ok (), .ok (), .ok ()⟩

/-- Oracle of a fully successful pipeline run. -/
def okFlowOracle : FlowOracle :=
  ⟨.ok (2 / 100), okClaimOracle, .ok (), .ok "tsig", okBuybackOracle,
   .ok (), okBurnOracle, true, .ok (), .ok ()⟩

/-- A claim run in which the wallet balance does not change across the
claim transaction: the measured delta is zero. -/
def zeroDeltaClaimOracle : ClaimOracle :=
  ⟨.ok 1000000000, .ok "csig", .ok 1000000000, .ok (), .ok (), .ok ()⟩

/-! ## C2: settlement is the measured balance delta -/

/-- C2: In Fee Claim, claimedAmount equals the wallet balance measured
after the claim transaction minus the balance measured before it, and
the operation fails with the no-funds-received error whenever this
delta is at most zero; the advisory estimate is never substituted for
the measured delta (the returned claimedAmount is the delta regardless
of the estimate argument). -/
theorem c2_claimed_is_measured_delta (tp bp : ℚ) (est : Option ℚ)
    (o : ClaimOracle) (s : Store) (b a : Int) (sig : String)
    (hb : o.balanceBefore = .ok b) (hcf : o.claimFeesResponse = .ok sig)
    (ha : o.balanceAfter = .ok a) :
    (∀ r, (claimCreatorFees tp bp est o s).1 = .ok r → r.success = true →
      r.claimedAmount = lamportsToSol a - lamportsToSol b) ∧
    (lamportsToSol a - lamportsToSol b ≤ 0 →
      claimCreatorFees tp bp est o s =
        (.ok (claimFail (noFundsMsg (lamportsToSol a - lamportsToSol b))), [])) := by
  unfold claimCreatorFees pumpFunClaimFees
  rw [hb, hcf, ha]
  constructor
  · intro r hr hs
    simp only at hr
    repeat' split at hr
    all_goals
      first
      | exact Except.noConfusion hr
      | (injection hr with hr2; subst hr2; rfl)
      | (injection hr with hr2; subst hr2; simp [claimFail] at hs)
  · intro hle
    simp only
    rw [if_pos hle]

/-- Witness for C2 at Scenario A of the spec: before 1.000 SOL, after
1.0185 SOL. -/
theorem c2_witness :
    okClaimOracle.balanceBefore = .ok 1000000000 ∧
    okClaimOracle.claimFeesResponse = .ok "csig" ∧
    okClaimOracle.balanceAfter = .ok 1018500000 ∧
    ((∀ r, (claimCreatorFees 50 50 (some (2 / 100)) okClaimOracle emptyStore).1 =
        .ok r → r.success = true →
        r.claimedAmount = lamportsToSol 1018500000 - lamportsToSol 1000000000) ∧
     (lamportsToSol 1018500000 - lamportsToSol 1000000000 ≤ 0 →
      claimCreatorFees 50 50 (some (2 / 100)) okClaimOracle emptyStore =
        (.ok (claimFail (noFundsMsg
          (lamportsToSol 1018500000 - lamportsToSol 1000000000))), []))) :=
  ⟨rfl, rfl, rfl,
   c2_claimed_is_measured_delta 50 50 (some (2 / 100)) okClaimOracle emptyStore
     1000000000 1018500000 "csig" rfl rfl rfl⟩

/-! ## C9: the advisory estimate influences nothing persisted -/

/-- C9: Two runs of claimCreatorFees that observe the same wallet
balances and ledger responses (the same oracle) but receive different
estimatedAmount inputs produce the same result — in particular the same
claimedAmount, treasuryAmount and buybackAmount — and the same database
events, hence identical persisted monetary fields.  This holds
definitionally because the estimate flows only into pumpFunClaimFees,
whose PumpPortal request omits the amount, and into log statements. -/
theorem c9_estimate_noninterference (tp bp : ℚ) (o : ClaimOracle) (s : Store)
    (est₁ est₂ : Option ℚ) :
    claimCreatorFees tp bp est₁ o s = claimCreatorFees tp bp est₂ o s := rfl

/-! ## C4: reserve safety adjustment -/

/-- Arithmetic core of the reserve check: when the percentages sum to
100 and the adjusted treasury share is positive, the two adjusted
shares sum to exactly the balance above the reserve. -/
theorem c4_adjusted_bound (tp bp solA minR : ℚ) (hsum : tp + bp = 100)
    (htp : 0 ≤ tp)
    (h1 : 0 < (0 ⊔ (solA - minR)) * tp / 100) :
    (0 ⊔ (solA - minR)) * tp / 100 + (0 ⊔ (solA - minR)) * bp / 100 ≤
      solA - minR := by
  set v := (0 : ℚ) ⊔ (solA - minR) with hv
  have hsum2 : v * tp / 100 + v * bp / 100 = v := by
    rw [div_add_div_same, ← mul_add, hsum]
    ring
  have hvtp : 0 < v * tp := by linarith
  have hvpos : 0 < v := by
    rcases le_or_lt v 0 with hle | hpos
    · have h0 : 0 ≤ (-v) * tp := mul_nonneg (neg_nonneg.mpr hle) htp
      nlinarith
    · exact hpos
  have hx : 0 < solA - minR := by
    by_contra hx
    push_neg at hx
    rw [hv, max_eq_left hx] at hvpos
    exact lt_irrefl 0 hvpos
  rw [hsum2, hv, max_eq_right (le_of_lt hx)]

/-- C4: Whenever sending treasuryAmount + buybackAmount would leave
the wallet below the minimum reserve, Fee Claim recomputes both shares
proportionally from (balance after − reserve) instead of claimedAmount;
after the safety adjustment every successful result satisfies
treasuryAmount + buybackAmount ≤ post-claim balance − reserve; and a
result with either share non-positive is never successful (the source
rejects it). -/
theorem c4_reserve_safety (tp bp : ℚ) (est : Option ℚ) (o : ClaimOracle)
    (s : Store) (b a : Int) (sig : String)
    (hb : o.balanceBefore = .ok b) (hcf : o.claimFeesResponse = .ok sig)
    (ha : o.balanceAfter = .ok a) (hsum : tp + bp = 100) (htp : 0 ≤ tp) :
    (∀ r, (claimCreatorFees tp bp est o s).1 = .ok r → r.success = true →
      r.treasuryAmount + r.buybackAmount ≤
        lamportsToSol a - minWalletBalanceSol) ∧
    (∀ r, (claimCreatorFees tp bp est o s).1 = .ok r → r.success = true →
      lamportsToSol a -
          ((lamportsToSol a - lamportsToSol b) * tp / 100 +
            (lamportsToSol a - lamportsToSol b) * bp / 100) <
        minWalletBalanceSol →
      r.treasuryAmount =
          max 0 (lamportsToSol a - minWalletBalanceSol) * tp / 100 ∧
        r.buybackAmount =
          max 0 (lamportsToSol a - minWalletBalanceSol) * bp / 100) ∧
    (∀ r, (claimCreatorFees tp bp est o s).1 = .ok r → r.success = true →
      0 < r.treasuryAmount ∧ 0 < r.buybackAmount) := by
  unfold claimCreatorFees pumpFunClaimFees
  rw [hb, hcf, ha]
  refine ⟨?_, ?_, ?_⟩
  · intro r hr hs
    simp only at hr
    repeat' split at hr
    all_goals
      first
      | exact Except.noConfusion hr
      | (injection hr with hr2; subst hr2; simp [claimFail] at hs; done)
      | (injection hr with hr2; subst hr2; linarith)
      | (injection hr with hr2; subst hr2
         have hC : ¬((0 ⊔ (lamportsToSol a - minWalletBalanceSol)) * tp / 100 ≤ 0 ∨
             (0 ⊔ (lamportsToSol a - minWalletBalanceSol)) * bp / 100 ≤ 0) := by
           assumption
         have h1 : 0 < (0 ⊔ (lamportsToSol a - minWalletBalanceSol)) * tp / 100 :=
           lt_of_not_le fun h => hC (Or.inl h)
         exact c4_adjusted_bound tp bp (lamportsToSol a) minWalletBalanceSol
           hsum htp h1)
  · intro r hr hs hguard
    simp only at hr
    repeat' split at hr
    all_goals
      first
      | exact Except.noConfusion hr
      | (injection hr with hr2; subst hr2; simp [claimFail] at hs; done)
      | (injection hr with hr2; subst hr2; exact ⟨rfl, rfl⟩)
  · intro r hr hs
    simp only at hr
    repeat' split at hr
    all_goals
      first
      | exact Except.noConfusion hr
      | (injection hr with hr2; subst hr2; simp [claimFail] at hs; done)
      | (injection hr with hr2; subst hr2
         have hC : ¬((0 ⊔ (lamportsToSol a - minWalletBalanceSol)) * tp / 100 ≤ 0 ∨
             (0 ⊔ (lamportsToSol a - minWalletBalanceSol)) * bp / 100 ≤ 0) := by
           assumption
         rw [not_or] at hC
         exact ⟨lt_of_not_le hC.1, lt_of_not_le hC.2⟩)
      | (injection hr with hr2; subst hr2
         have hC : ¬((lamportsToSol a - lamportsToSol b) * tp / 100 ≤ 0 ∨
             (lamportsToSol a - lamportsToSol b) * bp / 100 ≤ 0) := by
           assumption
         rw [not_or] at hC
         exact ⟨lt_of_not_le hC.1, lt_of_not_le hC.2⟩)

/-- Witness for C4 at a run that trips the reserve adjustment: balance
0.005 SOL before, 0.025 SOL after, 50/50 split. -/
def adjustClaimOracle : ClaimOracle :=
  ⟨.ok 5000000, .ok "csig", .ok 25000000, .ok (), .ok (), .ok ()⟩

theorem c4_witness :
    adjustClaimOracle.balanceBefore = .ok 5000000 ∧
    adjustClaimOracle.claimFeesResponse = .ok "csig" ∧
    adjustClaimOracle.balanceAfter = .ok 25000000 ∧
    (50 : ℚ) + 50 = 100 ∧ (0 : ℚ) ≤ 50 ∧
    ((∀ r, (claimCreatorFees 50 50 none adjustClaimOracle emptyStore).1 =
        .ok r → r.success = true →
        r.treasuryAmount + r.buybackAmount ≤
          lamportsToSol 25000000 - minWalletBalanceSol) ∧
     (∀ r, (claimCreatorFees 50 50 none adjustClaimOracle emptyStore).1 =
        .ok r → r.success = true →
        lamportsToSol 25000000 -
            ((lamportsToSol 25000000 - lamportsToSol 5000000) * 50 / 100 +
              (lamportsToSol 25000000 - lamportsToSol 5000000) * 50 / 100) <
          minWalletBalanceSol →
        r.treasuryAmount =
            max 0 (lamportsToSol 25000000 - minWalletBalanceSol) * 50 / 100 ∧
          r.buybackAmount =
            max 0 (lamportsToSol 25000000 - minWalletBalanceSol) * 50 / 100) ∧
     (∀ r, (claimCreatorFees 50 50 none adjustClaimOracle emptyStore).1 =
        .ok r → r.success = true →
        0 < r.treasuryAmount ∧ 0 < r.buybackAmount)) :=
  ⟨rfl, rfl, rfl, by norm_num, by norm_num,
   c4_reserve_safety 50 50 none adjustClaimOracle emptyStore 5000000 25000000
     "csig" rfl rfl rfl (by norm_num) (by norm_num)⟩

/-! ## C6: claim-row lifecycle -/

/-- After inserting a fresh claim row and then updating it, the row
shows the updated status. -/
theorem statusOf_ins_upd_claim (s : Store)
    (hwf : ∀ r ∈ s.claims, r.id < s.nextClaimId) (sig : String)
    (c t b : Int) (st : Status) (err : Option String) :
    statusOf (applyEvents s
      [.insClaim sig c t b, .updClaim s.nextClaimId st err]) .claims
      s.nextClaimId = some st := by
  show statusOf (applyEvent (applyEvent s (.insClaim sig c t b))
    (.updClaim s.nextClaimId st err)) .claims s.nextClaimId = some st
  simp only [statusOf, applyEvent]
  rw [find?_map_of_pred_preserved _ _ _
    (fun x => by by_cases hx : x.id = s.nextClaimId <;> simp [hx])]
  rw [find?_append_of_none _ (find?_claims_fresh_none hwf)]
  simp [List.find?]

/-- C6 (amended): Every Fee Claim execution that reaches the
persistence step inserts a Claim row with status pending (insert
semantics); on success the events are exactly the insert followed by
the confirmed update, and the row ends confirmed; when the function
returns a failure result after the row was inserted, the events are the
insert followed by the failed update carrying the error message, and
the row ends failed.  Executions failing before the persistence step
write no event at all. -/
theorem c6_claim_row_lifecycle (tp bp : ℚ) (est : Option ℚ) (o : ClaimOracle)
    (s : Store) (hwf : WF s) :
    (∀ r evs, claimCreatorFees tp bp est o s = (.ok r, evs) →
      r.success = true →
      ∃ sig, r.signature = some sig ∧
        evs = [.insClaim sig (solToLamports r.claimedAmount)
            (solToLamports r.treasuryAmount) (solToLamports r.buybackAmount),
          .updClaim s.nextClaimId .confirmed none] ∧
        statusOf (applyEvents s evs) .claims s.nextClaimId =
          some .confirmed) ∧
    (∀ r evs, claimCreatorFees tp bp est o s = (.ok r, evs) →
      r.success = false → evs ≠ [] →
      ∃ m sig c t bb, r.error = some m ∧
        evs = [.insClaim sig c t bb,
          .updClaim s.nextClaimId .failed (some m)] ∧
        statusOf (applyEvents s evs) .claims s.nextClaimId = some .failed) := by
  constructor
  · intro r evs hr hs
    unfold claimCreatorFees pumpFunClaimFees at hr
    simp only at hr
    repeat' split at hr
    all_goals simp only [Prod.mk.injEq] at hr
    all_goals obtain ⟨hr1, hr2⟩ := hr
    all_goals
      first
      | exact Except.noConfusion hr1
      | (injection hr1 with hr1; subst hr1; simp [claimFail] at hs; done)
      | (injection hr1 with hr1; subst hr1; subst hr2
         exact ⟨_, rfl, rfl, statusOf_ins_upd_claim s hwf.1 _ _ _ _ _ _⟩)
  · intro r evs hr hs hne
    unfold claimCreatorFees pumpFunClaimFees at hr
    simp only at hr
    repeat' split at hr
    all_goals simp only [Prod.mk.injEq] at hr
    all_goals obtain ⟨hr1, hr2⟩ := hr
    all_goals
      first
      | exact Except.noConfusion hr1
      | (injection hr1 with hr1; subst hr1; subst hr2; exact absurd rfl hne)
      | (injection hr1 with hr1; subst hr1; simp at hs)
      | (injection hr1 with hr1; subst hr1; subst hr2
         exact ⟨_, _, _, _, _, rfl, rfl,
           statusOf_ins_upd_claim s hwf.1 _ _ _ _ _ _⟩)

/-- Witness for C6 (amended) at the fully successful Scenario A run. -/
theorem c6_witness :
    WF emptyStore ∧
    ((∀ r evs, claimCreatorFees 50 50 none okClaimOracle emptyStore =
        (.ok r, evs) → r.success = true →
        ∃ sig, r.signature = some sig ∧
          evs = [.insClaim sig (solToLamports r.claimedAmount)
              (solToLamports r.treasuryAmount) (solToLamports r.buybackAmount),
            .updClaim emptyStore.nextClaimId .confirmed none] ∧
          statusOf (applyEvents emptyStore evs) .claims
            emptyStore.nextClaimId = some .confirmed) ∧
     (∀ r evs, claimCreatorFees 50 50 none okClaimOracle emptyStore =
        (.ok r, evs) → r.success = false → evs ≠ [] →
        ∃ m sig c t bb, r.error = some m ∧
          evs = [.insClaim sig c t bb,
            .updClaim emptyStore.nextClaimId .failed (some m)] ∧
          statusOf (applyEvents emptyStore evs) .claims
            emptyStore.nextClaimId = some .failed)) :=
  ⟨by decide, c6_claim_row_lifecycle 50 50 none okClaimOracle emptyStore (by decide)⟩

/-- Counterexample to C6 as stated: a Fee Claim execution whose
measured balance delta is zero fails before the persistence step and
persists no Claim row at all — the event list is empty and the store is
unchanged. -/
theorem c6_counterexample :
    claimCreatorFees 50 50 (some (2 / 100)) zeroDeltaClaimOracle emptyStore =
      (.ok (claimFail (noFundsMsg 0)), []) ∧
    (claimFail (noFundsMsg 0)).success = false ∧
    applyEvents emptyStore [] = emptyStore := by
  refine ⟨?_, rfl, rfl⟩
  unfold claimCreatorFees pumpFunClaimFees zeroDeltaClaimOracle
  norm_num [lamportsToSol]

/-! ## Helper lemmas for the orchestrator theorems -/

/-- A successful ClaimResult always carries a transaction signature. -/
theorem claimCreatorFees_success_sig (tp bp : ℚ) (est : Option ℚ)
    (o : ClaimOracle) (s : Store) :
    ∀ r, (claimCreatorFees tp bp est o s).1 = .ok r → r.success = true →
      ∃ sig, r.signature = some sig := by
  intro r hr hs
  unfold claimCreatorFees pumpFunClaimFees at hr
  simp only at hr
  repeat' split at hr
  all_goals
    first
    | exact Except.noConfusion hr
    | (injection hr with hr2; subst hr2; exact ⟨_, rfl⟩)
    | (injection hr with hr2; subst hr2; simp [claimFail] at hs)

/-- A successful BuybackResult always carries a transaction signature. -/
theorem buybackTokens_success_sig (cid : Nat) (amt : ℚ) (o : BuybackOracle)
    (s : Store) :
    ∀ r, (buybackTokens cid amt o s).1 = .ok r → r.success = true →
      ∃ sig, r.signature = some sig := by
  intro r hr hs
  unfold buybackTokens at hr
  simp only at hr
  repeat' split at hr
  all_goals
    first
    | exact Except.noConfusion hr
    | (injection hr with hr2; subst hr2; exact ⟨_, rfl⟩)
    | (injection hr with hr2; subst hr2; simp [buybackFailRes] at hs)

/-- A successful BurnResult always carries a transaction signature. -/
theorem burnPurchasedTokens_success_sig (bid : Nat) (tok : String)
    (o : BurnOracle) (s : Store) :
    ∀ r, (burnPurchasedTokens bid tok o s).result = .ok r →
      r.success = true → ∃ sig, r.signature = some sig := by
  intro r hr hs
  unfold burnPurchasedTokens at hr
  simp only at hr
  repeat' split at hr
  all_goals
    first
    | exact Except.noConfusion hr
    | (injection hr with hr2; subst hr2; exact ⟨_, rfl⟩)
    | (injection hr with hr2; subst hr2; simp [burnFailRes] at hs)

/-- The buyback stage writes only to the buybacks table: its events
leave the claims table of any store unchanged. -/
theorem buybackTokens_preserves_claims (cid : Nat) (amt : ℚ)
    (o : BuybackOracle) (s0 s' : Store) :
    (applyEvents s' (buybackTokens cid amt o s0).2).claims = s'.claims := by
  unfold buybackTokens
  rcases o.balanceBefore with e | b <;>
    rcases o.buyTokenResponse with e2 | res <;>
    rcases o.balanceAfter with e3 | a <;>
    rcases o.insBuybackDb with e4 | u <;>
    rcases o.updBuybackConfirmedDb with e5 | u2 <;>
    rcases o.updBuybackFailedDb with e6 | u3 <;>
    simp [applyEvents, applyEvent]

/-- The burn stage writes only to the burns table: its events leave the
claims table of any store unchanged. -/
theorem burnPurchasedTokens_preserves_claims (bid : Nat) (tok : String)
    (o : BurnOracle) (s0 s' : Store) :
    (applyEvents s' (burnPurchasedTokens bid tok o s0).events).claims =
      s'.claims := by
  unfold burnPurchasedTokens
  rcases parseDecimal tok with _ | d <;>
    rcases o.getMintDecimals with e | dec <;>
    rcases o.burnTxResponse with e2 | sig <;>
    rcases o.insBurnDb with e3 | u <;>
    rcases o.updBurnConfirmedDb with e4 | u2 <;>
    rcases o.updBurnFailedDb with e5 | u3 <;>
    simp only
  all_goals repeat' split
  all_goals simp [applyEvents, applyEvent]

/-- Every executeClaimFlow run ends either successfully or with the
catch-block failure result: success false, an error message, and all
monetary fields zero. -/
theorem flow_result_cases (tp bp : ℚ) (o : FlowOracle) (s : Store) :
    (executeClaimFlow tp bp o s).1.success = true ∨
    ((executeClaimFlow tp bp o s).1.success = false ∧
     (∃ m, (executeClaimFlow tp bp o s).1.error = some m) ∧
     (executeClaimFlow tp bp o s).1.claimedAmount = 0 ∧
     (executeClaimFlow tp bp o s).1.treasuryAmount = 0 ∧
     (executeClaimFlow tp bp o s).1.buybackAmount = 0 ∧
     (executeClaimFlow tp bp o s).1.tokensBurned = 0) := by
  unfold executeClaimFlow
  simp only
  repeat' split
  all_goals
    first
    | exact Or.inl rfl
    | exact Or.inr ⟨rfl, ⟨_, rfl⟩, rfl, rfl, rfl, rfl⟩

/-- The five stages of the saga, in program order. -/
def stageSeq : List StageCall :=
  [.validateStage, .claimStage, .treasuryStage, .buybackStage, .burnStage]

/-- The stage list of every run is a prefix of the five-stage sequence
followed by exactly one webhook notification carrying the outcome; a
successful run enters all five stages. -/
theorem flow_stage_structure (tp bp : ℚ) (o : FlowOracle) (s : Store)
    (hw : o.webhookConfigured = true) :
    ∃ k, k ≤ 5 ∧
      (executeClaimFlow tp bp o s).2.2 =
        stageSeq.take k ++
          [.webhookNotify (executeClaimFlow tp bp o s).1.success] ∧
      ((executeClaimFlow tp bp o s).1.success = true → k = 5) := by
  unfold executeClaimFlow
  simp only
  repeat' split
  all_goals
    first
    | (refine ⟨1, by omega, ?_, ?_⟩
       simp [flowAbort, notifyCalls, stageSeq, hw, flowFail]
       simp [flowAbort, flowFail])
    | (refine ⟨2, by omega, ?_, ?_⟩
       simp [flowAbort, notifyCalls, stageSeq, hw, flowFail]
       simp [flowAbort, flowFail])
    | (refine ⟨3, by omega, ?_, ?_⟩
       simp [flowAbort, notifyCalls, stageSeq, hw, flowFail]
       simp [flowAbort, flowFail])
    | (refine ⟨4, by omega, ?_, ?_⟩
       simp [flowAbort, notifyCalls, stageSeq, hw, flowFail]
       simp [flowAbort, flowFail])
    | (refine ⟨5, by omega, ?_, fun _ => rfl⟩
       simp [flowAbort, notifyCalls, stageSeq, hw, flowFail])

/-- A successful run aggregates all four stage signatures. -/
theorem flow_success_sigs (tp bp : ℚ) (o : FlowOracle) (s : Store) :
    ∀ res evs stages, executeClaimFlow tp bp o s = (res, evs, stages) →
      res.success = true →
      res.claimSignature.isSome ∧ res.treasurySignature.isSome ∧
      res.buybackSignature.isSome ∧ res.burnSignature.isSome := by
  intro res evs stages h hs
  unfold executeClaimFlow at h
  simp only at h
  split at h
  next e =>
    simp only [flowAbort, Prod.mk.injEq] at h
    obtain ⟨h1, _, _⟩ := h
    subst h1
    simp [flowFail] at hs
  next est hval =>
  split at h
  next e =>
    simp only [flowAbort, Prod.mk.injEq] at h
    obtain ⟨h1, _, _⟩ := h
    subst h1
    simp [flowFail] at hs
  next claimResult hclaim =>
  split at h
  next hcf =>
    simp only [flowAbort, Prod.mk.injEq] at h
    obtain ⟨h1, _, _⟩ := h
    subst h1
    simp [flowFail] at hs
  next hcsucc =>
  have hcs : claimResult.success = true := by
    cases hcv : claimResult.success
    · exact absurd hcv hcsucc
    · rfl
  split at h
  next e =>
    simp only [flowAbort, Prod.mk.injEq] at h
    obtain ⟨h1, _, _⟩ := h
    subst h1
    simp [flowFail] at hs
  next u hread =>
  split at h
  next e =>
    simp only [flowAbort, Prod.mk.injEq] at h
    obtain ⟨h1, _, _⟩ := h
    subst h1
    simp [flowFail] at hs
  next tsig htre =>
  split at h
  next e =>
    simp only [flowAbort, Prod.mk.injEq] at h
    obtain ⟨h1, _, _⟩ := h
    subst h1
    simp [flowFail] at hs
  next buybackResult hbuy =>
  split at h
  next hbf =>
    simp only [flowAbort, Prod.mk.injEq] at h
    obtain ⟨h1, _, _⟩ := h
    subst h1
    simp [flowFail] at hs
  next hbsucc =>
  have hbs : buybackResult.success = true := by
    cases hbv : buybackResult.success
    · exact absurd hbv hbsucc
    · rfl
  split at h
  next e =>
    simp only [flowAbort, Prod.mk.injEq] at h
    obtain ⟨h1, _, _⟩ := h
    subst h1
    simp [flowFail] at hs
  next u2 hrb =>
  split at h
  next e =>
    simp only [flowAbort, Prod.mk.injEq] at h
    obtain ⟨h1, _, _⟩ := h
    subst h1
    simp [flowFail] at hs
  next burnResult hburn =>
  split at h
  next hbnf =>
    simp only [flowAbort, Prod.mk.injEq] at h
    obtain ⟨h1, _, _⟩ := h
    subst h1
    simp [flowFail] at hs
  next hbnsucc =>
  have hbns : burnResult.success = true := by
    cases hbv : burnResult.success
    · exact absurd hbv hbnsucc
    · rfl
  simp only [Prod.mk.injEq] at h
  obtain ⟨h1, _, _⟩ := h
  subst h1
  refine ⟨?_, ?_, ?_, ?_⟩
  · obtain ⟨sig, hsig⟩ :=
      claimCreatorFees_success_sig _ _ _ _ _ _ hclaim hcs
    simp [hsig]
  · simp
  · obtain ⟨sig, hsig⟩ := buybackTokens_success_sig _ _ _ _ _ hbuy hbs
    simp [hsig]
  · obtain ⟨sig, hsig⟩ := burnPurchasedTokens_success_sig _ _ _ _ _ hburn hbns
    simp [hsig]

/-- The claims table is only written by the claim stage: no later stage
and no failure path modifies a Claim row (no compensation). -/
theorem flow_claims_final (tp bp : ℚ) (o : FlowOracle) (s : Store) :
    ∀ est, o.validateFees = .ok est →
      (applyEvents s (executeClaimFlow tp bp o s).2.1).claims =
      (applyEvents s (claimCreatorFees tp bp (some est) o.claim s).2).claims := by
  intro est hval
  unfold executeClaimFlow
  simp only
  rw [hval]
  repeat' split
  all_goals try simp only [flowAbort]
  all_goals
    first
    | rfl
    | (rw [applyEvents_append]
       exact buybackTokens_preserves_claims _ _ _ _ _)
    | (rw [applyEvents_append, applyEvents_append,
         burnPurchasedTokens_preserves_claims]
       exact buybackTokens_preserves_claims _ _ _ _ _)
    | simp_all

/-- C7: On any stage failure the Orchestrator aborts immediately — the
stage list is a proper prefix of the five-stage sequence, no later
stage is entered, and the claims table is never revisited (no
compensation) — and it notifies the external sink with the failure
payload; on full success it enters all five stages, notifies the sink
with the success payload, and returns a result carrying all four stage
signatures together with the claimed, treasury, buyback and burned
amounts. -/
theorem c7_abort_and_notify (tp bp : ℚ) (o : FlowOracle) (s : Store)
    (hw : o.webhookConfigured = true) :
    (∃ k, k ≤ 5 ∧
      (executeClaimFlow tp bp o s).2.2 =
        stageSeq.take k ++
          [.webhookNotify (executeClaimFlow tp bp o s).1.success] ∧
      ((executeClaimFlow tp bp o s).1.success = true → k = 5)) ∧
    ((executeClaimFlow tp bp o s).1.success = false →
      ∃ m, (executeClaimFlow tp bp o s).1.error = some m) ∧
    ((executeClaimFlow tp bp o s).1.success = true →
      (executeClaimFlow tp bp o s).1.claimSignature.isSome ∧
      (executeClaimFlow tp bp o s).1.treasurySignature.isSome ∧
      (executeClaimFlow tp bp o s).1.buybackSignature.isSome ∧
      (executeClaimFlow tp bp o s).1.burnSignature.isSome) ∧
    (∀ est, o.validateFees = .ok est →
      (applyEvents s (executeClaimFlow tp bp o s).2.1).claims =
      (applyEvents s (claimCreatorFees tp bp (some est) o.claim s).2).claims) := by
  refine ⟨flow_stage_structure tp bp o s hw, ?_, ?_,
    flow_claims_final tp bp o s⟩
  · intro hf
    rcases flow_result_cases tp bp o s with h | h
    · rw [h] at hf
      exact Bool.noConfusion hf
    · exact h.2.1
  · intro hs
    exact flow_success_sigs tp bp o s _ _ _ rfl hs

/-- Witness for C7 at the fully successful pipeline run. -/
theorem c7_witness :
    okFlowOracle.webhookConfigured = true ∧
    (∃ k, k ≤ 5 ∧
      (executeClaimFlow 50 50 okFlowOracle emptyStore).2.2 =
        stageSeq.take k ++
          [.webhookNotify (executeClaimFlow 50 50 okFlowOracle emptyStore).1.success] ∧
      ((executeClaimFlow 50 50 okFlowOracle emptyStore).1.success = true →
        k = 5)) ∧
    ((executeClaimFlow 50 50 okFlowOracle emptyStore).1.success = false →
      ∃ m, (executeClaimFlow 50 50 okFlowOracle emptyStore).1.error = some m) ∧
    ((executeClaimFlow 50 50 okFlowOracle emptyStore).1.success = true →
      (executeClaimFlow 50 50 okFlowOracle emptyStore).1.claimSignature.isSome ∧
      (executeClaimFlow 50 50 okFlowOracle emptyStore).1.treasurySignature.isSome ∧
      (executeClaimFlow 50 50 okFlowOracle emptyStore).1.buybackSignature.isSome ∧
      (executeClaimFlow 50 50 okFlowOracle emptyStore).1.burnSignature.isSome) ∧
    (∀ est, okFlowOracle.validateFees = .ok est →
      (applyEvents emptyStore
        (executeClaimFlow 50 50 okFlowOracle emptyStore).2.1).claims =
      (applyEvents emptyStore
        (claimCreatorFees 50 50 (some est) okFlowOracle.claim
          emptyStore).2).claims) :=
  ⟨rfl, c7_abort_and_notify 50 50 okFlowOracle emptyStore rfl⟩

/-- C10: executeClaimFlow is total at its interface: for every oracle
(including every failure of an internal stage) it returns an
OrchestrationResult rather than raising; on failure the result has
success false, an error message, and all monetary amounts zero; and the
outcome of the webhook post (success or rejection) never changes the
returned result. -/
theorem c10_flow_total_interface (tp bp : ℚ) (o : FlowOracle) (s : Store) :
    ((executeClaimFlow tp bp o s).1.success = true ∨
     ((executeClaimFlow tp bp o s).1.success = false ∧
      (∃ m, (executeClaimFlow tp bp o s).1.error = some m) ∧
      (executeClaimFlow tp bp o s).1.claimedAmount = 0 ∧
      (executeClaimFlow tp bp o s).1.treasuryAmount = 0 ∧
      (executeClaimFlow tp bp o s).1.buybackAmount = 0 ∧
      (executeClaimFlow tp bp o s).1.tokensBurned = 0)) ∧
    (∀ w₁ w₂ w₃ w₄,
      executeClaimFlow tp bp
        { o with webhookPostOk := w₁, webhookPostFail := w₂ } s =
      executeClaimFlow tp bp
        { o with webhookPostOk := w₃, webhookPostFail := w₄ } s) :=
  ⟨flow_result_cases tp bp o s, fun w₁ w₂ w₃ w₄ => by cases o; rfl⟩

/-- Witness for C8: the fully successful run over a fresh store. -/
theorem c8_witness :
    WF emptyStore ∧
    TerminalStable emptyStore
      (executeClaimFlow 50 50 okFlowOracle emptyStore).2.1 :=
  ⟨by decide, c8_status_terminal_stable 50 50 okFlowOracle emptyStore (by decide)⟩

/-! ## C3: burn conversion -/

/-- C3: Burn rejects a tokenAmount that is unparsable or non-positive
(failure result, no database event, no transfer submitted) and converts
the display amount as floor(display × 10^decimals), never rounding up —
for "194000.5" at 6 decimals the raw amount is 194000500000.  But the
claimed rejection of a display amount whose raw conversion is 0 is
absent from the source: at "0.0000001" with 6 decimals the code
computes raw amount 0, submits a zero-amount transfer, reports success,
and persists a confirmed Burn row — the failing input of this code
bug. -/
theorem c3_burn_floor_and_zero_raw_bug :
    parseDecimal "194000.5" = some (388001 / 2) ∧
    burnRawAmount (388001 / 2) 6 = 194000500000 ∧
    (∀ (d : ℚ) (dec : Nat), (burnRawAmount d dec : ℚ) ≤ d * 10 ^ dec) ∧
    parseDecimal "abc" = none ∧
    (burnPurchasedTokens 1 "abc" okBurnOracle emptyStore).result =
      .ok (burnFailRes (invalidTokenAmountMsg "abc")) ∧
    (burnPurchasedTokens 1 "abc" okBurnOracle emptyStore).events = [] ∧
    (burnPurchasedTokens 1 "abc" okBurnOracle emptyStore).submittedRaw = none ∧
    parseDecimal "-5" = some (-5) ∧
    (burnPurchasedTokens 1 "-5" okBurnOracle emptyStore).result =
      .ok (burnFailRes (invalidTokenAmountMsg "-5")) ∧
    (burnPurchasedTokens 1 "-5" okBurnOracle emptyStore).submittedRaw = none ∧
    parseDecimal "0.0000001" = some (1 / 10000000) ∧
    burnRawAmount (1 / 10000000) 6 = 0 ∧
    (burnPurchasedTokens 1 "0.0000001" okBurnOracle emptyStore).submittedRaw =
      some 0 ∧
    (burnPurchasedTokens 1 "0.0000001" okBurnOracle emptyStore).result =
      .ok { success := true, signature := some "rsig",
            tokensBurned := 1 / 10000000, error := none } ∧
    (burnPurchasedTokens 1 "0.0000001" okBurnOracle emptyStore).events =
      [.insBurn 1 "rsig" "0.0000001", .updBurn 1 .confirmed none] := by
  have hp1 : parseDecimal "194000.5" = some (388001 / 2) := by
    simp [parseDecimal, digitsVal, List.dropWhile, List.takeWhile, Char.isDigit]
    norm_num
  have hpa : parseDecimal "abc" = none := by
    simp [parseDecimal, digitsVal, List.dropWhile, List.takeWhile, Char.isDigit]
  have hpn : parseDecimal "-5" = some (-5) := by
    simp [parseDecimal, digitsVal, List.dropWhile, List.takeWhile, Char.isDigit]
  have hp0 : parseDecimal "0.0000001" = some (1 / 10000000) := by
    simp [parseDecimal, digitsVal, List.dropWhile, List.takeWhile, Char.isDigit]
    norm_num
  have habc : burnPurchasedTokens 1 "abc" okBurnOracle emptyStore =
      ⟨.ok (burnFailRes (invalidTokenAmountMsg "abc")), [], none⟩ := by
    unfold burnPurchasedTokens
    rw [hpa]
  have hneg : burnPurchasedTokens 1 "-5" okBurnOracle emptyStore =
      ⟨.ok (burnFailRes (invalidTokenAmountMsg "-5")), [], none⟩ := by
    unfold burnPurchasedTokens
    rw [hpn]
    norm_num
  have hzero : burnPurchasedTokens 1 "0.0000001" okBurnOracle emptyStore =
      ⟨.ok { success := true, signature := some "rsig",
             tokensBurned := 1 / 10000000, error := none },
       [.insBurn 1 "rsig" "0.0000001", .updBurn 1 .confirmed none],
       some 0⟩ := by
    unfold burnPurchasedTokens okBurnOracle
    rw [hp0]
    norm_num [burnRawAmount, emptyStore]
  refine ⟨hp1, ?_, ?_, hpa, ?_, ?_, ?_, hpn, ?_, ?_, hp0, ?_, ?_, ?_, ?_⟩
  · norm_num [burnRawAmount]
  · intro d dec
    exact Int.floor_le _
  · rw [habc]
  · rw [habc]
  · rw [habc]
  · rw [hneg]
  · rw [hneg]
  · norm_num [burnRawAmount]
  · rw [hzero]
  · rw [hzero]
  · rw [hzero]

/-! ## C5: child-row linking -/

/-- The store as it stands before a second pipeline run: one confirmed
claim, buyback and burn from the first run; the next serial ids are
all 2. -/
def run2Store : Store :=
  ⟨[⟨1, "oldsig", 100, 50, 50, .confirmed, none⟩],
   [⟨1, 1, "oldbuy", "5", 10, .confirmed, none⟩],
   [⟨1, 1, "oldburn", "5", .confirmed, none⟩], 2, 2, 2⟩

/-- C5 evaluated at the failing input: a fully successful second run.
The run creates Claim row 2, yet the Buyback row it persists carries
claim_id 1 (the hard-coded getClaimById(1) lookup) and the Burn row
carries buyback_id 1 — the children do not reference the rows created
in the same run. -/
theorem c5_second_run_links_to_row_one :
    executeClaimFlow 50 50 okFlowOracle run2Store =
      ({ success := true, claimSignature := some "csig",
         treasurySignature := some "tsig", buybackSignature := some "bsig",
         burnSignature := some "rsig", claimedAmount := 37 / 2000,
         treasuryAmount := 37 / 4000, buybackAmount := 37 / 4000,
         tokensBurned := 388001 / 2, error := none },
       [.insClaim "csig" 18500000 9250000 9250000, .updClaim 2 .confirmed none,
        .insBuyback 1 "bsig" "194000.5" 9250000, .updBuyback 2 .confirmed none,
        .insBurn 1 "rsig" "194000.5", .updBurn 2 .confirmed none],
       [.validateStage, .claimStage, .treasuryStage, .buybackStage,
        .burnStage, .webhookNotify true]) ∧
    ((applyEvents run2Store
        [DbEvent.insClaim "csig" 18500000 9250000 9250000,
         .updClaim 2 .confirmed none,
         .insBuyback 1 "bsig" "194000.5" 9250000, .updBuyback 2 .confirmed none,
         .insBurn 1 "rsig" "194000.5", .updBurn 2 .confirmed none]).claims.any
      (fun r => r.id == 2 && r.signature == "csig" &&
        r.status == Status.confirmed)) = true ∧
    ((applyEvents run2Store
        [DbEvent.insClaim "csig" 18500000 9250000 9250000,
         .updClaim 2 .confirmed none,
         .insBuyback 1 "bsig" "194000.5" 9250000, .updBuyback 2 .confirmed none,
         .insBurn 1 "rsig" "194000.5", .updBurn 2 .confirmed none]).buybacks.all
      (fun r => !(r.signature == "bsig") || (r.claimId == 1 && r.id == 2))) =
      true ∧
    ((applyEvents run2Store
        [DbEvent.insClaim "csig" 18500000 9250000 9250000,
         .updClaim 2 .confirmed none,
         .insBuyback 1 "bsig" "194000.5" 9250000, .updBuyback 2 .confirmed none,
         .insBurn 1 "rsig" "194000.5", .updBurn 2 .confirmed none]).burns.all
      (fun r => !(r.signature == "rsig") || (r.buybackId == 1 && r.id == 2))) =
      true := by
  have hp1 : parseDecimal "194000.5" = some (388001 / 2) := by
    simp [parseDecimal, digitsVal, List.dropWhile, List.takeWhile, Char.isDigit]
    norm_num
  refine ⟨?_, by decide, by decide, by decide⟩
  norm_num [executeClaimFlow, claimCreatorFees, pumpFunClaimFees,
    buybackTokens, burnPurchasedTokens, okFlowOracle, okClaimOracle,
    okBuybackOracle, okBurnOracle, run2Store, lamportsToSol, solToLamports,
    minWalletBalanceSol, burnRawAmount, applyEvents, applyEvent,
    List.find?, notifyCalls, hp1]

/-! ## C1: the single-flight lock -/

/-- C1 evaluated at the failing interleaving: two scheduler ticks both
pass the claimInProgress check while the other is suspended at the
awaits between that check and the lock assignment, then both set the
lock and both enter executeClaimFlow — a reachable state with two
Orchestrator runs in flight, violating single-flight.  The conflict
refusal of forceCheck while the lock is held does hold (last
conjunct). -/
theorem c1_two_runs_in_flight_reachable :
    SchedReachable raceEnv ⟨false, []⟩
      ⟨true, [.phaseRunning, .phaseRunning]⟩ ∧
    inFlight ⟨true, [.phaseRunning, .phaseRunning]⟩ = 2 ∧
    forceCheck ⟨true, [.phaseRunning]⟩ =
      .error "Claim operation already in progress" := by
  refine ⟨?_, rfl, rfl⟩
  exact Relation.ReflTransGen.head (SchedStep.tick false [])
    (Relation.ReflTransGen.head (SchedStep.tick false [.phaseStart])
      (Relation.ReflTransGen.head (SchedStep.beginTask false [] [.phaseStart])
        (Relation.ReflTransGen.head
          (SchedStep.beginTask false [.phaseAfterStatus] [])
          (Relation.ReflTransGen.head
            (SchedStep.proceed [] [.phaseAfterStatus] rfl)
            (Relation.ReflTransGen.head
              (SchedStep.proceed [.phaseAfterDecision] [] rfl)
              (Relation.ReflTransGen.head
                (SchedStep.acquire false [] [.phaseAfterDecision] rfl rfl)
                (Relation.ReflTransGen.head
                  (SchedStep.acquire true [.phaseRunning] [] rfl rfl)
                  Relation.ReflTransGen.refl)))))))

end AutoPump
